import Mathlib

/-!
The class matioCpp::Vector: a shallow embedding of `impl/Vector.tpp`, with the
element access declared in `MultiDimensionalArray.h`.

The one-dimensional specialisation of the typed array wrapper.  Every member
function of `Vector.tpp` that the properties below talk about is translated
line by line.  The pieces of the library that live in other files
(`Variable`, `MatvarHandler`, the type registry, `Span`) are modelled from the
written specification and are marked as such.

Conventions
* `std::string` is a Lean `String`; its characters are `s.toList`.
* `Span<T>` (pointer + length over live memory) is the `List T` of the viewed
  elements.
* A call that leaves defined behaviour (a failed `assert`, an out-of-range
  read or write) yields `none`.
* `NDEBUG = true` means that `assert` is compiled out.
-/

set_option autoImplicit false

namespace matioCpp

/-- Modelled from the spec: the structural category of an external record
(`VariableKind`: scalar, vector, N-D array, string, struct, cell), with the
`Unsupported` default that `checkCompatibility` starts from. -/
inductive VariableType where
  | Scalar
  | Vector
  | MultiDimensionalArray
  | String
  | Struct
  | Cell
  | Unsupported
  deriving DecidableEq, Repr

/-- Modelled from the spec: the dynamic element type tag (`DynamicTypeTag`):
signed and unsigned integers of several widths, 32/64-bit floating point,
single-byte character, and the `UNSUPPORTED` sentinel. -/
inductive ValueType where
  | INT8
  | UINT8
  | INT16
  | UINT16
  | INT32
  | UINT32
  | INT64
  | UINT64
  | SINGLE
  | DOUBLE
  | CHAR
  | UNSUPPORTED
  deriving DecidableEq, Repr

/-- Modelled from the spec: the external variable record (`Handle`): name,
dimension sizes, structural kind, element type tag, complex flag and the
column-major buffer, read as elements of the static type `T`. -/
structure matvar_t (T : Type) where
  name : String
  variableType : VariableType
  valueType : ValueType
  dims : List Nat
  isComplex : Bool
  data : List T

/-- Modelled from the spec: the type registry entry of a static element type
`T`: `get_type<T>::valueType` (`tagOf<T>()`), `is_convertible_to_primitive_type<T>`
(`isConvertible`), the value `T()` a `std::vector<T>(n)` is filled with,
`std::is_same<T, char>::value`, and the conversion used by `empty[i] = name[i]`. -/
class PrimitiveType (T : Type) where
  valueType : ValueType
  is_convertible_to_primitive_type : ValueType → Bool
  zero : T
  is_char : Bool
  ofChar : Char → T

/-- Modelled from the spec: `char`, the single-byte character type; convertibility
is identity of the type tag. -/
instance instPrimitiveTypeChar : PrimitiveType Char where
  valueType := ValueType.CHAR
  is_convertible_to_primitive_type := fun t => decide (t = ValueType.CHAR)
  zero := Char.ofNat 0
  is_char := true
  ofChar := fun c => c

/-- Modelled from the spec: `int32_t`; convertibility is identity of the type
tag. -/
instance instPrimitiveTypeInt : PrimitiveType Int where
  valueType := ValueType.INT32
  is_convertible_to_primitive_type := fun t => decide (t = ValueType.INT32)
  zero := 0
  is_char := false
  ofChar := fun c => Int.ofNat c.toNat

/-- Modelled from the spec: a `MatvarHandler` as handed to the adopting
constructor: the identity (allocation serial) of the record it points to and
the record itself, `none` for a null pointer. -/
structure MatvarHandler (T : Type) where
  allocation : Nat
  ptr : Option (matvar_t T)

/-- The state of a constructed `Vector<T>`: the handle it wraps.  `allocation`
is the identity of the handle (the serial number of the allocation that
produced it); `matvar` is the record `toMatio()` points to. -/
structure Vector (T : Type) where
  allocation : Nat
  matvar : matvar_t T

variable {T : Type}

/-- Modelled from the spec: `Variable::name()` reads the name field. -/
def Vector.name (v : Vector T) : String := v.matvar.name

/-- Modelled from the spec: `Variable::dimensions()` reads the dimension sizes. -/
def Vector.dimensions (v : Vector T) : List Nat := v.matvar.dims

/-- Modelled from the spec: `Variable::initializeVariable`, the handle allocation
`allocate(name, dims, type, data) -> Handle`: a new record is allocated (its
identity differs from the one held before), `product(dimensions)` elements are
copied from the source buffer, and the old record is released.  The first
argument is the identity of the handle held before the call. -/
def initializeVariable (held : Nat) (name : String) (variableType : VariableType)
    (valueType : ValueType) (dimensions : List Nat) (data : List T) : Bool × Vector T :=
  (true,
   { allocation := held + 1,
     matvar :=
       { name := name, variableType := variableType, valueType := valueType,
         dims := dimensions, isComplex := false,
         data := data.take dimensions.prod } })

/-- Modelled from the spec: `get_types_from_matvart` reports the structural kind
and the element type tag of a record. -/
def get_types_from_matvart (inputPtr : matvar_t T) : VariableType × ValueType :=
  (inputPtr.variableType, inputPtr.valueType)

/-- The call `memcpy(dst, src, n * sizeof(T))`: the first `n` elements of `dst` are
overwritten by the first `n` elements of `src`; undefined when either buffer
is shorter than `n`. -/
def memcpy (dst src : List T) (n : Nat) : Option (List T) :=
  if n ≤ dst.length ∧ n ≤ src.length then some (src.take n ++ dst.drop n) else none

/-- Modelled from the spec: `make_span(pointer, n)`, the view of `n` elements
starting at the buffer's first element; undefined when the buffer is shorter. -/
def make_span (buffer : List T) (n : Nat) : Option (List T) :=
  if n ≤ buffer.length then some (buffer.take n) else none

/-- Member `Vector<T>::initializeVector` (Vector.tpp 14-19). -/
def Vector.initializeVector [PrimitiveType T] (held : Nat) (name : String)
    (inputVector : List T) : Bool × Vector T :=
  let dimensions : List Nat := [1, inputVector.length]
  initializeVariable held name VariableType.Vector (PrimitiveType.valueType T)
    dimensions inputVector

/-- Member `Vector<T>::checkCompatibility` (Vector.tpp 21-60); the diagnostics written
to `std::cerr` are not modelled. -/
def Vector.checkCompatibility [PrimitiveType T] (inputPtr : Option (matvar_t T)) : Bool :=
  match inputPtr with
  | none => false
  | some p =>
    let outputVariableType := (get_types_from_matvart p).1
    let outputValueType := (get_types_from_matvart p).2
    if outputVariableType ≠ VariableType.Vector then false
    else if p.isComplex then false
    else if !(PrimitiveType.is_convertible_to_primitive_type T outputValueType) then false
    else true

/-- Member `Vector<T>::size` (Vector.tpp 200-207).  With assertions enabled a
dimension sequence of length other than 2 aborts; reading `dimensions()[0]`
or `dimensions()[1]` past the end is undefined. -/
def Vector.size (NDEBUG : Bool) (v : Vector T) : Option Nat :=
  if !NDEBUG && v.dimensions.length != 2 then none
  else
    match v.dimensions[0]?, v.dimensions[1]? with
    | some d0, some d1 => some (if min d0 d1 > 0 then max d0 d1 else 0)
    | _, _ => none

/-- Member `Vector<T>::data` (Vector.tpp 220-230): the buffer `toMatio()->data`. -/
def Vector.data (v : Vector T) : List T := v.matvar.data

/-- Member `Vector<T>::toSpan` (Vector.tpp 182-192): `make_span(*this)` builds the view
from `data()` and `size()`. -/
def Vector.toSpan (NDEBUG : Bool) (v : Vector T) : Option (List T) :=
  match v.size NDEBUG with
  | none => none
  | some n => make_span v.data n

/-- The loop `for (i = 0; i < name.size(); ++i) empty[i] = name[i];` of the
constructor from a name (Vector.tpp 79-82). -/
def Vector.copyName [PrimitiveType T] (name : String) (empty : List T) : List T :=
  name.toList.enum.foldl (fun e p => e.set p.1 (PrimitiveType.ofChar p.2)) empty

/-- Member `Vector<T>::Vector()` (Vector.tpp 62-68). -/
def Vector.new [PrimitiveType T] : Vector T :=
  let empty : List T := []
  (Vector.initializeVector 0 "unnamed_vector" empty).2

/-- Member `Vector<T>::Vector(const std::string& name)` (Vector.tpp 70-86). -/
def Vector.new_name [PrimitiveType T] (name : String) : Vector T :=
  let empty : List T := []
  let empty : List T :=
    if PrimitiveType.is_char T then
      Vector.copyName name (List.replicate name.length (PrimitiveType.zero))
    else empty
  (Vector.initializeVector 0 name empty).2

/-- Member `Vector<T>::Vector(const std::string& name, Span<T> inputVector)`
(Vector.tpp 88-93). -/
def Vector.new_span [PrimitiveType T] (name : String) (inputVector : List T) : Vector T :=
  (Vector.initializeVector 0 name inputVector).2

/-- Member `Vector<T>::Vector(const MatvarHandler& handler)` (Vector.tpp 115-127).  The
base class shares the handler; on an incompatible handle `assert(false)` aborts
when assertions are enabled, otherwise an empty vector is initialised. -/
def Vector.new_handler [PrimitiveType T] (NDEBUG : Bool) (handler : MatvarHandler T) :
    Option (Vector T) :=
  if !(Vector.checkCompatibility handler.ptr) then
    if !NDEBUG then none
    else
      let empty : List T := []
      some (Vector.initializeVector handler.allocation "unnamed_vector" empty).2
  else
    handler.ptr.map (fun p => { allocation := handler.allocation, matvar := p })

/-- Member `Vector<T>::operator=(const Span<T>& other)` (Vector.tpp 149-162). -/
def Vector.operator_assign [PrimitiveType T] (NDEBUG : Bool) (v : Vector T)
    (other : List T) : Option (Vector T) :=
  match v.size NDEBUG with
  | none => none
  | some n =>
    if n = other.length then
      match memcpy v.matvar.data other n with
      | none => none
      | some d => some { v with matvar := { v.matvar with data := d } }
    else
      some (Vector.initializeVector v.allocation v.name other).2

/-- Member `Vector<T>::operator=(const std::string& other)` (Vector.tpp 164-180),
instantiated for `char` only. -/
def Vector.operator_assign_string (NDEBUG : Bool) (v : Vector Char)
    (other : String) : Option (Vector Char) :=
  match v.size NDEBUG with
  | none => none
  | some n =>
    if n = other.length then
      match memcpy v.matvar.data other.toList n with
      | none => none
      | some d => some { v with matvar := { v.matvar with data := d } }
    else
      let dimensions : List Nat := [1, other.length]
      some (initializeVariable v.allocation v.name VariableType.Vector
        (PrimitiveType.valueType Char) dimensions other.toList).2

/-- Member `Vector<T>::setName` (Vector.tpp 194-198). -/
def Vector.setName [PrimitiveType T] (NDEBUG : Bool) (v : Vector T)
    (newName : String) : Option (Bool × Vector T) :=
  match v.toSpan NDEBUG with
  | none => none
  | some s => some (Vector.initializeVector v.allocation newName s)

/-- Member `Vector<T>::resize` (Vector.tpp 209-218). -/
def Vector.resize [PrimitiveType T] (NDEBUG : Bool) (v : Vector T)
    (newSize : Nat) : Option (Vector T) :=
  match v.size NDEBUG with
  | none => none
  | some n =>
    if newSize ≠ n then
      let newVector : List T := List.replicate newSize (PrimitiveType.zero)
      match memcpy newVector v.data (min newSize n) with
      | none => none
      | some newVector => v.operator_assign NDEBUG newVector
    else some v

/-- Member `Vector<T>::operator()(index_type el) const` (Vector.tpp 238-242):
`toSpan()(el)`; an index outside the view is a precondition violation. -/
def Vector.operator_call (NDEBUG : Bool) (v : Vector T) (el : Nat) : Option T :=
  match v.toSpan NDEBUG with
  | none => none
  | some s => s[el]?

/-- Member `Vector<T>::operator()() const` (Vector.tpp 244-249), instantiated for `char`
only: `std::string(data(), size())`. -/
def Vector.operator_call_string (NDEBUG : Bool) (v : Vector Char) : Option String :=
  match v.size NDEBUG with
  | none => none
  | some n => if n ≤ v.data.length then some (String.mk (v.data.take n)) else none

/-- Member `Vector<T>::Vector(const std::string& name, const std::string& inputString)`
(Vector.tpp 95-101), instantiated for `char` only. -/
def Vector.new_string (name : String) (inputString : String) : Vector Char :=
  let dimensions : List Nat := [1, inputString.length]
  (initializeVariable 0 name VariableType.Vector (PrimitiveType.valueType Char)
    dimensions inputString.toList).2

/-- Member `Vector<T>::operator[](index_type el) const` (Vector.tpp 257-261):
`this->operator()(el)`. -/
def Vector.operator_index (NDEBUG : Bool) (v : Vector T) (el : Nat) : Option T :=
  v.operator_call NDEBUG el

/-- Member `Vector<T>::operator()(index_type el)` (Vector.tpp 232-236), the mutating
overload: `toSpan()(el)` is a reference to element `el` of the view, which is
position `el` of the buffer.  The result is that position; an index outside
the view is a precondition violation. -/
def Vector.operator_call_ref (NDEBUG : Bool) (v : Vector T) (el : Nat) : Option Nat :=
  match v.toSpan NDEBUG with
  | none => none
  | some s => if el < s.length then some el else none

/-- Member `Vector<T>::operator[](index_type el)` (Vector.tpp 251-255), the mutating
overload: `this->operator()(el)`. -/
def Vector.operator_index_ref (NDEBUG : Bool) (v : Vector T) (el : Nat) : Option Nat :=
  v.operator_call_ref NDEBUG el

/-- Modelled from the spec: a store through a live reference into the buffer
(`v(i) = x`): the designated buffer position takes the value, nothing else of
the handle is touched. -/
def Vector.store (v : Vector T) (ref : Nat) (x : T) : Vector T :=
  { v with matvar := { v.matvar with data := v.matvar.data.set ref x } }

/-- Modelled from the spec: the iterator over the linear element order of a
vector, `iterator(this, index)`: it holds the position it designates. -/
structure vector_iterator where
  index : Nat
  deriving DecidableEq, Repr

/-- The standard adaptor `std::reverse_iterator`: it wraps the iterator one past
the element it designates. -/
structure reverse_iterator where
  base : vector_iterator
  deriving DecidableEq, Repr

/-- Member `Vector<T>::begin` (Vector.tpp 263-267, 275-279). -/
def Vector.begin (_v : Vector T) : vector_iterator := { index := 0 }

/-- Member `Vector<T>::end` (Vector.tpp 269-273, 281-285). -/
def Vector.end_ (NDEBUG : Bool) (v : Vector T) : Option vector_iterator :=
  match v.size NDEBUG with
  | none => none
  | some n => some { index := n }

/-- Member `Vector<T>::cbegin` (Vector.tpp 287-291). -/
def Vector.cbegin (_v : Vector T) : vector_iterator := { index := 0 }

/-- Member `Vector<T>::cend` (Vector.tpp 293-297). -/
def Vector.cend (NDEBUG : Bool) (v : Vector T) : Option vector_iterator :=
  match v.size NDEBUG with
  | none => none
  | some n => some { index := n }

/-- Member `Vector<T>::rbegin` (Vector.tpp 299-303, 311-315): `reverse_iterator{end()}`. -/
def Vector.rbegin (NDEBUG : Bool) (v : Vector T) : Option reverse_iterator :=
  match v.end_ NDEBUG with
  | none => none
  | some e => some { base := e }

/-- Member `Vector<T>::rend` (Vector.tpp 305-309, 317-321): `reverse_iterator{begin()}`. -/
def Vector.rend (v : Vector T) : reverse_iterator := { base := v.begin }

/-- Member `Vector<T>::crbegin` (Vector.tpp 323-327): `const_reverse_iterator{cend()}`. -/
def Vector.crbegin (NDEBUG : Bool) (v : Vector T) : Option reverse_iterator :=
  match v.cend NDEBUG with
  | none => none
  | some e => some { base := e }

/-- Member `Vector<T>::crend` (Vector.tpp 329-333): `const_reverse_iterator{cbegin()}`. -/
def Vector.crend (v : Vector T) : reverse_iterator := { base := v.cbegin }

/-- Modelled from the spec: dereferencing an iterator yields the element of the
vector at the position it holds. -/
def vector_iterator.deref (NDEBUG : Bool) (v : Vector T) (it : vector_iterator) : Option T :=
  v.operator_call NDEBUG it.index

/-- The traversal `for (it = first; it != last; ++it) visit(*it);`, returning the
visited elements in order.  `fuel` bounds the number of loop iterations; `none`
means that the loop left defined behaviour or did not finish within `fuel`. -/
def traverse (NDEBUG : Bool) (v : Vector T) (last : vector_iterator) :
    Nat → vector_iterator → Option (List T)
  | fuel, it =>
    if it = last then some []
    else
      match fuel with
      | 0 => none
      | fuel + 1 =>
        match it.deref NDEBUG v with
        | none => none
        | some x =>
          match traverse NDEBUG v last fuel { index := it.index + 1 } with
          | none => none
          | some xs => some (x :: xs)

/-- The traversal `for (it = first; it != last; ++it) visit(*it);` over reverse
iterators: `*it` is the element before `it.base`, `++it` moves the base one
position back; moving before position 0 is undefined. -/
def traverse_reverse (NDEBUG : Bool) (v : Vector T) (last : reverse_iterator) :
    Nat → reverse_iterator → Option (List T)
  | fuel, it =>
    if it = last then some []
    else
      match fuel with
      | 0 => none
      | fuel + 1 =>
        match it.base.index with
        | 0 => none
        | k + 1 =>
          match vector_iterator.deref NDEBUG v { index := k } with
          | none => none
          | some x =>
            match traverse_reverse NDEBUG v last fuel { base := { index := k } } with
            | none => none
            | some xs => some (x :: xs)

/-- Modelled from the spec: the representation of a vector record: its dimensions
are `[1, N]` or `[N, 1]`, or both entries are 0 for the degenerate empty
vector. -/
def matvar_t.vectorDimensions (p : matvar_t T) : Bool :=
  match p.dims with
  | [a, b] => decide (a = 1 ∨ b = 1 ∨ (a = 0 ∧ b = 0))
  | _ => false

/-- The Vectors that the constructors and the mutating members of `Vector.tpp`
can produce: built by the default, name, name+span, name+string or handler
constructor (the handler pointing at nothing or at a record that keeps the
representation of vector records), then changed by span assignment, string
assignment, `resize` or `setName`. -/
inductive Reachable (NDEBUG : Bool) : (T : Type) → PrimitiveType T → Vector T → Prop
  | new (T : Type) (inst : PrimitiveType T) :
      Reachable NDEBUG T inst (@Vector.new T inst)
  | new_name (T : Type) (inst : PrimitiveType T) (name : String) :
      Reachable NDEBUG T inst (@Vector.new_name T inst name)
  | new_span (T : Type) (inst : PrimitiveType T) (name : String) (inputVector : List T) :
      Reachable NDEBUG T inst (@Vector.new_span T inst name inputVector)
  | new_string (name inputString : String) :
      Reachable NDEBUG Char instPrimitiveTypeChar (Vector.new_string name inputString)
  | new_handler (T : Type) (inst : PrimitiveType T) (handler : MatvarHandler T)
      (w : Vector T) :
      (∀ p, handler.ptr = some p → p.variableType = VariableType.Vector →
        p.vectorDimensions = true) →
      @Vector.new_handler T inst NDEBUG handler = some w →
      Reachable NDEBUG T inst w
  | operator_assign (T : Type) (inst : PrimitiveType T) (v w : Vector T)
      (other : List T) :
      Reachable NDEBUG T inst v →
      @Vector.operator_assign T inst NDEBUG v other = some w →
      Reachable NDEBUG T inst w
  | operator_assign_string (v w : Vector Char) (other : String) :
      Reachable NDEBUG Char instPrimitiveTypeChar v →
      Vector.operator_assign_string NDEBUG v other = some w →
      Reachable NDEBUG Char instPrimitiveTypeChar w
  | resize (T : Type) (inst : PrimitiveType T) (v w : Vector T) (newSize : Nat) :
      Reachable NDEBUG T inst v →
      @Vector.resize T inst NDEBUG v newSize = some w →
      Reachable NDEBUG T inst w
  | setName (T : Type) (inst : PrimitiveType T) (v w : Vector T) (newName : String)
      (ok : Bool) :
      Reachable NDEBUG T inst v →
      @Vector.setName T inst NDEBUG v newName = some (ok, w) →
      Reachable NDEBUG T inst w

/-- Modelled from the spec: the state of a `MultiDimensionalArray<T>`, the handle
it wraps (the implementation of the class is not part of the sources at hand). -/
structure MultiDimensionalArray (T : Type) where
  allocation : Nat
  matvar : matvar_t T

/-- Modelled from the spec: the column-major stride of dimension `k`:
`stride[0] = 1` and `stride[k] = stride[k-1] * dimensions[k-1]`. -/
def MultiDimensionalArray.stride (dimensions : List Nat) : Nat → Nat
  | 0 => 1
  | k + 1 => MultiDimensionalArray.stride dimensions k * dimensions.getD k 0

/-- Modelled from the spec: the linear column-major offset of a multi-index,
`sum(index[k] * stride[k])`. -/
def MultiDimensionalArray.offset (dimensions el : List Nat) : Nat :=
  ((List.range el.length).map
    (fun k => el.getD k 0 * MultiDimensionalArray.stride dimensions k)).sum

/-- Modelled from the spec: `MultiDimensionalArray<T>::operator()(el)`
(declared in MultiDimensionalArray.h 172-180): the buffer element at the linear
offset of `el`; an offset outside the buffer is undefined. -/
def MultiDimensionalArray.operator_call (m : MultiDimensionalArray T) (el : List Nat) :
    Option T :=
  m.matvar.data[MultiDimensionalArray.offset m.matvar.dims el]?

/-- Modelled from the spec: `MultiDimensionalArray<T>::operator[](el)`
(declared in MultiDimensionalArray.h 188-196), the same access as `operator()`. -/
def MultiDimensionalArray.operator_index (m : MultiDimensionalArray T) (el : List Nat) :
    Option T :=
  m.operator_call el

/-! ### Concrete vectors used to instantiate the theorems -/

/-- A row vector `[1, 3]` of `int32_t` holding `10, 20, 30`. -/
def sampleRow : Vector Int :=
  { allocation := 7,
    matvar := { name := "row", variableType := VariableType.Vector,
                valueType := ValueType.INT32, dims := [1, 3], isComplex := false,
                data := [10, 20, 30] } }

/-- A column vector `[3, 1]` of `int32_t` holding `1, 2, 3`. -/
def sampleColumn : Vector Int :=
  { allocation := 4,
    matvar := { name := "column", variableType := VariableType.Vector,
                valueType := ValueType.INT32, dims := [3, 1], isComplex := false,
                data := [1, 2, 3] } }

/-- A `char` row vector `[1, 2]` holding `hi`. -/
def sampleText : Vector Char :=
  { allocation := 2,
    matvar := { name := "text", variableType := VariableType.Vector,
                valueType := ValueType.CHAR, dims := [1, 2], isComplex := false,
                data := ['h', 'i'] } }

/-- A handler pointing at a complex record, which `checkCompatibility` rejects. -/
def sampleComplexHandler : MatvarHandler Int :=
  { allocation := 3,
    ptr := some { name := "z", variableType := VariableType.Vector,
                  valueType := ValueType.INT32, dims := [1, 2], isComplex := true,
                  data := [1, 2] } }

/-- A handler pointing at the record of `sampleColumn`. -/
def sampleColumnHandler : MatvarHandler Int :=
  { allocation := 4, ptr := some sampleColumn.matvar }

/-- A `2 x 3` array of `int32_t` filled column-major with `1, 2, 3, 4, 5, 6`. -/
def sampleMatrix : MultiDimensionalArray Int :=
  { allocation := 5,
    matvar := { name := "matrix", variableType := VariableType.MultiDimensionalArray,
                valueType := ValueType.INT32, dims := [2, 3], isComplex := false,
                data := [1, 2, 3, 4, 5, 6] } }

end matioCpp

namespace matioCpp

variable {T : Type}

/-! ## Auxiliary facts about the embedding -/

theorem size_of_dims (NDEBUG : Bool) (v : Vector T) (a b : Nat)
    (hd : v.dimensions = [a, b]) :
    Vector.size NDEBUG v = some (if min a b > 0 then max a b else 0) := by
  unfold Vector.size
  rw [hd]
  cases NDEBUG <;> simp

theorem size_value_le_prod (a b : Nat) :
    (if min a b > 0 then max a b else 0) ≤ a * b := by
  by_cases h : min a b > 0
  · have ha : 0 < a := lt_of_lt_of_le h (min_le_left a b)
    have hb : 0 < b := lt_of_lt_of_le h (min_le_right a b)
    simp only [h, if_true]
    exact max_le (Nat.le_mul_of_pos_right a hb) (Nat.le_mul_of_pos_left b ha)
  · simp [h]

theorem size_value_one_left (n : Nat) :
    (if min 1 n > 0 then max 1 n else 0) = n := by
  by_cases h : n = 0
  · simp [h]
  · have h1 : 1 ≤ n := Nat.one_le_iff_ne_zero.mpr h
    simp [Nat.min_eq_left h1, Nat.max_eq_right h1]

theorem initializeVariable_row (held : Nat) (name : String) (vt : VariableType)
    (tag : ValueType) (xs : List T) :
    (initializeVariable held name vt tag [1, xs.length] xs).2
      = { allocation := held + 1,
          matvar := { name := name, variableType := vt, valueType := tag,
                      dims := [1, xs.length], isComplex := false, data := xs } } := by
  simp [initializeVariable]

theorem initializeVector_snd [PrimitiveType T] (held : Nat) (name : String) (xs : List T) :
    (Vector.initializeVector held name xs).2
      = { allocation := held + 1,
          matvar := { name := name, variableType := VariableType.Vector,
                      valueType := PrimitiveType.valueType T,
                      dims := [1, xs.length], isComplex := false, data := xs } } := by
  unfold Vector.initializeVector
  exact initializeVariable_row held name _ _ xs

theorem size_row (NDEBUG : Bool) (v : Vector T) (xs : List T)
    (hd : v.dimensions = [1, xs.length]) : Vector.size NDEBUG v = some xs.length := by
  rw [size_of_dims NDEBUG v 1 xs.length hd, size_value_one_left]

theorem toSpan_row (NDEBUG : Bool) (v : Vector T) (xs : List T)
    (hd : v.dimensions = [1, xs.length]) (hx : v.data = xs) :
    Vector.toSpan NDEBUG v = some xs := by
  unfold Vector.toSpan
  rw [size_row NDEBUG v xs hd, hx]
  simp [make_span]

theorem size_le_buffer (NDEBUG : Bool) (v : Vector T) (a b : Nat)
    (hd : v.dimensions = [a, b]) (hbuf : v.data.length = a * b) :
    ∃ n, Vector.size NDEBUG v = some n ∧ n ≤ v.data.length :=
  ⟨_, size_of_dims NDEBUG v a b hd, by rw [hbuf]; exact size_value_le_prod a b⟩

theorem toSpan_of_size (NDEBUG : Bool) (v : Vector T) (n : Nat)
    (hsz : Vector.size NDEBUG v = some n) (hle : n ≤ v.data.length) :
    Vector.toSpan NDEBUG v = some (v.data.take n) := by
  unfold Vector.toSpan
  rw [hsz]
  simp only [make_span]
  rw [if_pos hle]

theorem size_congr (NDEBUG : Bool) (v w : Vector T) (h : w.dimensions = v.dimensions) :
    Vector.size NDEBUG w = Vector.size NDEBUG v := by
  unfold Vector.size
  rw [h]

theorem operator_assign_same [PrimitiveType T] (NDEBUG : Bool) (v : Vector T)
    (other : List T) (hsz : Vector.size NDEBUG v = some other.length)
    (hle : other.length ≤ v.data.length) :
    Vector.operator_assign NDEBUG v other
      = some { v with matvar := { v.matvar with
                 data := other ++ v.matvar.data.drop other.length } } := by
  unfold Vector.operator_assign
  rw [hsz]
  have hb : other.length ≤ v.matvar.data.length := hle
  simp [memcpy, hb]

theorem operator_assign_other [PrimitiveType T] (NDEBUG : Bool) (v : Vector T) (n : Nat)
    (other : List T) (hsz : Vector.size NDEBUG v = some n) (hlen : n ≠ other.length) :
    Vector.operator_assign NDEBUG v other
      = some (Vector.initializeVector v.allocation v.name other).2 := by
  unfold Vector.operator_assign
  rw [hsz]
  simp only [if_neg hlen]

theorem operator_call_of_span (NDEBUG : Bool) (v : Vector T) (s : List T) (el : Nat)
    (h : Vector.toSpan NDEBUG v = some s) : Vector.operator_call NDEBUG v el = s[el]? := by
  unfold Vector.operator_call
  rw [h]

theorem resize_changed [PrimitiveType T] (NDEBUG : Bool) (v : Vector T) (n1 n2 : Nat)
    (hsz : Vector.size NDEBUG v = some n1) (hle : n1 ≤ v.data.length) (hne : n2 ≠ n1) :
    Vector.resize NDEBUG v n2
      = some (Vector.initializeVector v.allocation v.name
          (v.data.take (min n2 n1)
            ++ List.replicate (n2 - min n2 n1) (PrimitiveType.zero))).2 := by
  have hm1 : min n2 n1 ≤ v.data.length := le_trans (min_le_right n2 n1) hle
  have hm2 : min n2 n1 ≤ n2 := min_le_left n2 n1
  have hlen : (v.data.take (min n2 n1)
      ++ List.replicate (n2 - min n2 n1) (PrimitiveType.zero : T)).length = n2 := by
    simp only [List.length_append, List.length_take, List.length_replicate]
    omega
  unfold Vector.resize
  rw [hsz]
  simp only [ne_eq, hne, not_false_eq_true, if_true, memcpy, List.length_replicate,
    List.drop_replicate]
  rw [if_pos ⟨hm2, hm1⟩]
  exact operator_assign_other NDEBUG v n1 _ hsz (by rw [hlen]; exact fun h => hne h.symm)

theorem operator_assign_string_same (NDEBUG : Bool) (v : Vector Char)
    (other : String) (hsz : Vector.size NDEBUG v = some other.length)
    (hle : other.length ≤ v.data.length) :
    Vector.operator_assign_string NDEBUG v other
      = some { v with matvar := { v.matvar with
                 data := other.toList ++ v.matvar.data.drop other.length } } := by
  unfold Vector.operator_assign_string
  rw [hsz]
  have hb : other.length ≤ v.matvar.data.length := hle
  have hl : other.toList.length = other.length := rfl
  have ht : other.toList.take other.length = other.toList :=
    List.take_of_length_le (le_of_eq hl)
  simp only [memcpy, hl, hb, le_refl, and_self, ↓reduceIte, ht]

theorem operator_assign_string_other (NDEBUG : Bool) (v : Vector Char) (n : Nat)
    (other : String) (hsz : Vector.size NDEBUG v = some n) (hlen : n ≠ other.length) :
    Vector.operator_assign_string NDEBUG v other
      = some { allocation := v.allocation + 1,
               matvar := { name := v.name, variableType := VariableType.Vector,
                           valueType := PrimitiveType.valueType Char,
                           dims := [1, other.length], isComplex := false,
                           data := other.toList } } := by
  unfold Vector.operator_assign_string
  rw [hsz]
  simp only [if_neg hlen]
  exact congrArg some (initializeVariable_row v.allocation v.name _ _ other.toList)

theorem operator_call_string_of_size (NDEBUG : Bool) (v : Vector Char) (n : Nat)
    (hsz : Vector.size NDEBUG v = some n) (hle : n ≤ v.data.length) :
    Vector.operator_call_string NDEBUG v = some (String.mk (v.data.take n)) := by
  unfold Vector.operator_call_string
  rw [hsz]
  dsimp only
  rw [if_pos hle]

theorem foldl_set_enumFrom (f : Char → T) (cs : List Char) :
    ∀ (pre rest : List T), rest.length = cs.length →
      (cs.enumFrom pre.length).foldl (fun e p => e.set p.1 (f p.2)) (pre ++ rest)
        = pre ++ cs.map f := by
  induction cs with
  | nil =>
    intro pre rest h
    have hr : rest = [] := List.length_eq_zero.mp h
    simp [hr]
  | cons c cs ih =>
    intro pre rest h
    cases rest with
    | nil => simp at h
    | cons r rest =>
      have hlen : rest.length = cs.length := by simpa using h
      have hstep : (pre ++ r :: rest).set pre.length (f c) = (pre ++ [f c]) ++ rest := by
        simp
      have hpre : (pre ++ [f c]).length = pre.length + 1 := by simp
      simp only [List.enumFrom_cons, List.foldl_cons, hstep, List.map_cons]
      rw [← hpre, ih (pre ++ [f c]) rest hlen]
      simp

theorem copyName_replicate [PrimitiveType T] (name : String) :
    Vector.copyName name (List.replicate name.length (PrimitiveType.zero : T))
      = name.toList.map PrimitiveType.ofChar := by
  unfold Vector.copyName
  have h := foldl_set_enumFrom (PrimitiveType.ofChar : Char → T) name.toList []
    (List.replicate name.length (PrimitiveType.zero : T)) (by simp)
  simpa [List.enum] using h

theorem setName_eq [PrimitiveType T] (NDEBUG : Bool) (v : Vector T) (n : Nat)
    (hsz : Vector.size NDEBUG v = some n) (hle : n ≤ v.data.length) (newName : String) :
    Vector.setName NDEBUG v newName
      = some (true,
          { allocation := v.allocation + 1,
            matvar := { name := newName, variableType := VariableType.Vector,
                        valueType := PrimitiveType.valueType T,
                        dims := [1, n], isComplex := false,
                        data := v.data.take n } }) := by
  unfold Vector.setName
  rw [toSpan_of_size NDEBUG v n hsz hle]
  have hl : (v.data.take n).length = n := by
    rw [List.length_take]; omega
  have h2 := initializeVector_snd v.allocation newName (v.data.take n)
  rw [hl] at h2
  have h1 : (Vector.initializeVector v.allocation newName (v.data.take n)).1 = true := rfl
  exact congrArg some (Prod.ext h1 h2)

theorem resize_same [PrimitiveType T] (NDEBUG : Bool) (v : Vector T) (n : Nat)
    (hsz : Vector.size NDEBUG v = some n) : Vector.resize NDEBUG v n = some v := by
  unfold Vector.resize
  rw [hsz]
  simp

theorem size_value_shape (a b : Nat) (h : a = 1 ∨ b = 1 ∨ a = 0 ∨ b = 0) :
    (if min a b > 0 then max a b else 0) = a * b := by
  rcases h with h | h | h | h
  · subst h
    rw [size_value_one_left, Nat.one_mul]
  · subst h
    by_cases hz : a = 0
    · simp [hz]
    · have h1 : 1 ≤ a := Nat.one_le_iff_ne_zero.mpr hz
      simp [Nat.min_eq_right h1, Nat.max_eq_left h1]
  · subst h
    simp
  · subst h
    simp

theorem traverse_forward (NDEBUG : Bool) (v : Vector T) (s : List T)
    (hspan : Vector.toSpan NDEBUG v = some s) :
    ∀ (fuel k : Nat), k ≤ s.length → s.length - k ≤ fuel →
      traverse NDEBUG v { index := s.length } fuel { index := k } = some (s.drop k) := by
  intro fuel
  induction fuel with
  | zero =>
    intro k hk hf
    have hkn : k = s.length := by omega
    subst hkn
    unfold traverse
    simp
  | succ f ih =>
    intro k hk hf
    by_cases hkn : k = s.length
    · subst hkn
      unfold traverse
      simp
    · have hlt : k < s.length := lt_of_le_of_ne hk hkn
      have hne : ({ index := k } : vector_iterator) ≠ { index := s.length } := by
        intro h
        exact hkn (congrArg vector_iterator.index h)
      have hderef : vector_iterator.deref NDEBUG v { index := k } = some s[k] := by
        unfold vector_iterator.deref
        rw [operator_call_of_span NDEBUG v s k hspan]
        exact List.getElem?_eq_getElem hlt
      unfold traverse
      rw [if_neg hne]
      simp only [hderef, ih (k + 1) (by omega) (by omega)]
      rw [← List.drop_eq_getElem_cons hlt]

theorem traverse_backward (NDEBUG : Bool) (v : Vector T) (s : List T)
    (hspan : Vector.toSpan NDEBUG v = some s) :
    ∀ (fuel k : Nat), k ≤ s.length → k ≤ fuel →
      traverse_reverse NDEBUG v { base := { index := 0 } } fuel { base := { index := k } }
        = some (s.take k).reverse := by
  intro fuel
  induction fuel with
  | zero =>
    intro k _ hf
    have hk0 : k = 0 := by omega
    subst hk0
    unfold traverse_reverse
    simp
  | succ f ih =>
    intro k hk hf
    cases k with
    | zero =>
      unfold traverse_reverse
      simp
    | succ j =>
      have hlt : j < s.length := by omega
      have hne : ({ base := { index := j + 1 } } : reverse_iterator)
          ≠ { base := { index := 0 } } := by
        intro h
        have h2 := congrArg (fun r => r.base.index) h
        simp at h2
      have hderef : vector_iterator.deref NDEBUG v { index := j } = some s[j] := by
        unfold vector_iterator.deref
        rw [operator_call_of_span NDEBUG v s j hspan]
        exact List.getElem?_eq_getElem hlt
      unfold traverse_reverse
      rw [if_neg hne]
      simp only [hderef, ih j (by omega) (by omega)]
      have hts : s.take (j + 1) = s.take j ++ [s[j]] := by
        rw [List.take_succ, List.getElem?_eq_getElem hlt]
        rfl
      rw [hts, List.reverse_append]
      rfl

theorem vectorDimensions_row (p : matvar_t T) (n : Nat) (h : p.dims = [1, n]) :
    p.vectorDimensions = true := by
  unfold matvar_t.vectorDimensions
  rw [h]
  simp

theorem vectorDimensions_dims (p : matvar_t T) (h : p.vectorDimensions = true) :
    ∃ a b, p.dims = [a, b] ∧ (a = 1 ∨ b = 1 ∨ (a = 0 ∧ b = 0)) := by
  unfold matvar_t.vectorDimensions at h
  split at h
  · next a b hab => exact ⟨a, b, hab, by simpa using h⟩
  · exact absurd h (by simp)

theorem checkCompatibility_kind [PrimitiveType T] (p : matvar_t T)
    (h : Vector.checkCompatibility (some p) = true) :
    p.variableType = VariableType.Vector := by
  unfold Vector.checkCompatibility at h
  by_contra hne
  simp [get_types_from_matvart, hne] at h

theorem vectorDimensions_operator_assign [PrimitiveType T] (NDEBUG : Bool) (v w : Vector T)
    (other : List T) (hv : v.matvar.vectorDimensions = true)
    (h : Vector.operator_assign NDEBUG v other = some w) :
    w.matvar.vectorDimensions = true := by
  unfold Vector.operator_assign at h
  cases hs : Vector.size NDEBUG v with
  | none => simp [hs] at h
  | some n =>
    rw [hs] at h
    by_cases hlen : n = other.length
    · simp only [hlen, if_true] at h
      cases hm : memcpy v.matvar.data other other.length with
      | none => simp [hm] at h
      | some d =>
        simp only [hm, Option.some.injEq] at h
        rw [← h]
        exact hv
    · simp only [hlen, if_false, Option.some.injEq] at h
      rw [← h, initializeVector_snd]
      exact vectorDimensions_row _ other.length rfl

theorem reachable_vectorDimensions (NDEBUG : Bool) (T : Type) (inst : PrimitiveType T)
    (v : Vector T) (h : Reachable NDEBUG T inst v) :
    v.matvar.vectorDimensions = true := by
  induction h with
  | new T inst =>
    unfold Vector.new
    rw [initializeVector_snd]
    exact vectorDimensions_row _ _ rfl
  | new_name T inst name =>
    unfold Vector.new_name
    rw [initializeVector_snd]
    exact vectorDimensions_row _ _ rfl
  | new_span T inst name inputVector =>
    unfold Vector.new_span
    rw [initializeVector_snd]
    exact vectorDimensions_row _ _ rfl
  | new_string name inputString =>
    unfold Vector.new_string
    exact vectorDimensions_row _ inputString.length rfl
  | new_handler T inst handler w hrep hnew =>
    unfold Vector.new_handler at hnew
    cases hc : Vector.checkCompatibility handler.ptr with
    | false =>
      cases NDEBUG with
      | false => simp [hc] at hnew
      | true =>
        simp only [hc, Bool.not_false, if_true, Bool.not_true, Bool.false_eq_true,
          if_false, Option.some.injEq] at hnew
        rw [← hnew, initializeVector_snd]
        exact vectorDimensions_row _ _ rfl
    | true =>
      cases hp : handler.ptr with
      | none =>
        rw [hp] at hc
        simp [Vector.checkCompatibility] at hc
      | some p =>
        rw [hp] at hc
        simp only [hp, hc, Bool.not_true, Bool.false_eq_true, if_false, Option.map_some',
          Option.some.injEq] at hnew
        rw [← hnew]
        exact hrep p hp (checkCompatibility_kind p hc)
  | operator_assign T inst v w other _ hop ih =>
    exact vectorDimensions_operator_assign NDEBUG v w other ih hop
  | operator_assign_string v w other _ hop ih =>
    unfold Vector.operator_assign_string at hop
    cases hs : Vector.size NDEBUG v with
    | none => simp [hs] at hop
    | some n =>
      rw [hs] at hop
      dsimp only at hop
      split at hop
      · split at hop
        · exact absurd hop (by simp)
        · injection hop with hop
          rw [← hop]
          exact ih
      · injection hop with hop
        rw [← hop]
        exact vectorDimensions_row _ other.length rfl
  | resize T inst v w newSize _ hop ih =>
    unfold Vector.resize at hop
    cases hs : Vector.size NDEBUG v with
    | none => simp [hs] at hop
    | some n =>
      rw [hs] at hop
      by_cases hne : newSize = n
      · simp only [hne, ne_eq, not_true_eq_false, if_false, Option.some.injEq] at hop
        rw [← hop]
        exact ih
      · simp only [ne_eq, hne, not_false_eq_true, if_true] at hop
        cases hm : memcpy (List.replicate newSize (PrimitiveType.zero : T)) v.data
            (min newSize n) with
        | none => simp [hm] at hop
        | some nv =>
          simp only [hm] at hop
          exact vectorDimensions_operator_assign NDEBUG v w nv ih hop
  | setName T inst v w newName ok _ hop _ =>
    unfold Vector.setName at hop
    cases hs : Vector.toSpan NDEBUG v with
    | none => simp [hs] at hop
    | some sp =>
      simp only [hs, Option.some.injEq] at hop
      have h2 : (Vector.initializeVector v.allocation newName sp).2 = w :=
        congrArg Prod.snd hop
      rw [← h2, initializeVector_snd]
      exact vectorDimensions_row _ _ rfl

theorem stride_cons (d : Nat) (ds : List Nat) (k : Nat) :
    MultiDimensionalArray.stride (d :: ds) (k + 1)
      = d * MultiDimensionalArray.stride ds k := by
  induction k with
  | zero => simp [MultiDimensionalArray.stride]
  | succ k ih =>
    have h1 : MultiDimensionalArray.stride (d :: ds) (k + 1 + 1)
        = MultiDimensionalArray.stride (d :: ds) (k + 1) * (d :: ds).getD (k + 1) 0 := rfl
    have h2 : MultiDimensionalArray.stride ds (k + 1)
        = MultiDimensionalArray.stride ds k * ds.getD k 0 := rfl
    rw [h1, ih, h2, List.getD_cons_succ, Nat.mul_assoc]

theorem offset_cons (d e : Nat) (ds es : List Nat) :
    MultiDimensionalArray.offset (d :: ds) (e :: es)
      = e + d * MultiDimensionalArray.offset ds es := by
  unfold MultiDimensionalArray.offset
  rw [List.length_cons, List.range_succ_eq_map, List.map_cons, List.sum_cons, List.map_map]
  have h0 : (e :: es).getD 0 0 * MultiDimensionalArray.stride (d :: ds) 0 = e := by
    simp [MultiDimensionalArray.stride]
  have hf : ((fun k => (e :: es).getD k 0 * MultiDimensionalArray.stride (d :: ds) k)
        ∘ Nat.succ)
      = fun k => d * (es.getD k 0 * MultiDimensionalArray.stride ds k) := by
    funext k
    show (e :: es).getD (k + 1) 0 * MultiDimensionalArray.stride (d :: ds) (k + 1) = _
    rw [List.getD_cons_succ, stride_cons, Nat.mul_left_comm]
  rw [h0, hf, List.sum_map_mul_left]

theorem offset_lt_prod :
    ∀ (ds es : List Nat), es.length = ds.length →
      (∀ k, k < ds.length → es.getD k 0 < ds.getD k 0) →
      MultiDimensionalArray.offset ds es < ds.prod := by
  intro ds
  induction ds with
  | nil =>
    intro es hlen _
    have he : es = [] := List.length_eq_zero.mp hlen
    subst he
    simp [MultiDimensionalArray.offset]
  | cons d ds ih =>
    intro es hlen hel
    cases es with
    | nil => simp at hlen
    | cons e es =>
      have hlen2 : es.length = ds.length := by simpa using hlen
      have he : e < d := by
        have := hel 0 (by simp)
        simpa using this
      have hrest : ∀ k, k < ds.length → es.getD k 0 < ds.getD k 0 := by
        intro k hk
        have := hel (k + 1) (by simpa using hk)
        simpa using this
      have hoff := ih es hlen2 hrest
      have hmul : d * (MultiDimensionalArray.offset ds es + 1) ≤ d * ds.prod :=
        Nat.mul_le_mul_left d hoff
      rw [offset_cons, List.prod_cons]
      rw [Nat.mul_succ] at hmul
      omega

/-! ## The properties -/

/-- C1: for a Vector `v` of size `n1` and every `n2`, after `v.resize(n2)` the
size is `n2`, every element `i < min n1 n2` holds the value it held before the
call, and every element `i` with `n1 ≤ i < n2` is the zero value of `T`. -/
theorem resize_contents [PrimitiveType T] (NDEBUG : Bool) (v : Vector T)
    (a b n1 n2 : Nat) (hd : v.dimensions = [a, b]) (hbuf : v.data.length = a * b)
    (hn1 : Vector.size NDEBUG v = some n1) :
    ∃ w, Vector.resize NDEBUG v n2 = some w
      ∧ Vector.size NDEBUG w = some n2
      ∧ (∀ i, i < min n1 n2 →
          ∃ x, Vector.operator_call NDEBUG v i = some x
             ∧ Vector.operator_call NDEBUG w i = some x)
      ∧ (∀ i, n1 ≤ i → i < n2 →
          Vector.operator_call NDEBUG w i = some (PrimitiveType.zero)) := by
  obtain ⟨n, hsz, hle⟩ := size_le_buffer NDEBUG v a b hd hbuf
  have hn : n = n1 := Option.some.inj (hsz.symm.trans hn1)
  subst hn
  have hspan := toSpan_of_size NDEBUG v n hsz hle
  by_cases hne : n2 = n
  · subst hne
    refine ⟨v, ?_, hsz, ?_, ?_⟩
    · unfold Vector.resize
      rw [hsz]
      simp
    · intro i hi
      have hi2 : i < (v.data.take n2).length := by
        rw [List.length_take]
        omega
      refine ⟨(v.data.take n2)[i], ?_, ?_⟩ <;>
      · rw [operator_call_of_span NDEBUG v _ i hspan]
        exact List.getElem?_eq_getElem hi2
    · intro i h1 h2
      omega
  · have hlen : (v.data.take (min n2 n)
        ++ List.replicate (n2 - min n2 n) (PrimitiveType.zero : T)).length = n2 := by
      simp only [List.length_append, List.length_take, List.length_replicate]
      omega
    have hwd : (Vector.initializeVector v.allocation v.name
        (v.data.take (min n2 n)
          ++ List.replicate (n2 - min n2 n) (PrimitiveType.zero : T))).2.dimensions
        = [1, (v.data.take (min n2 n)
          ++ List.replicate (n2 - min n2 n) (PrimitiveType.zero : T)).length] := by
      rw [initializeVector_snd]; rfl
    have hws := toSpan_row NDEBUG _ _ hwd (by rw [initializeVector_snd]; rfl)
    refine ⟨_, resize_changed NDEBUG v n n2 hsz hle hne, ?_, ?_, ?_⟩
    · rw [size_row NDEBUG _ _ hwd, hlen]
    · intro i hi
      have hi1 : i < n := lt_of_lt_of_le hi (min_le_left n n2)
      have hi2 : i < n2 := lt_of_lt_of_le hi (min_le_right n n2)
      have hiv : i < v.data.length := lt_of_lt_of_le hi1 hle
      refine ⟨v.data[i], ?_, ?_⟩
      · rw [operator_call_of_span NDEBUG v _ i hspan, List.getElem?_take_of_lt hi1]
        exact List.getElem?_eq_getElem hiv
      · rw [operator_call_of_span NDEBUG _ _ i hws,
          List.getElem?_append_left (by rw [List.length_take]; omega),
          List.getElem?_take_of_lt (by omega)]
        exact List.getElem?_eq_getElem hiv
    · intro i h1 h2
      have hmin : min n2 n = n := by omega
      rw [operator_call_of_span NDEBUG _ _ i hws, hmin,
        List.getElem?_append_right (by rw [List.length_take]; omega)]
      rw [List.getElem?_replicate]
      rw [if_pos (by rw [List.length_take]; omega)]

/-- C4: for every Vector `v` and every source span `src`, of the same length as
`v` or of a different one, after `v = src` the size of `v` is the length of
`src` and element `i` of `v` equals `src[i]` for every `i` below that length. -/
theorem operator_assign_contents [PrimitiveType T] (NDEBUG : Bool) (v : Vector T)
    (a b : Nat) (hd : v.dimensions = [a, b]) (hbuf : v.data.length = a * b)
    (src : List T) :
    ∃ w, Vector.operator_assign NDEBUG v src = some w
      ∧ Vector.size NDEBUG w = some src.length
      ∧ ∀ i, i < src.length → Vector.operator_call NDEBUG w i = src[i]? := by
  obtain ⟨n, hsz, hle⟩ := size_le_buffer NDEBUG v a b hd hbuf
  by_cases hlen : n = src.length
  · subst hlen
    refine ⟨_, operator_assign_same NDEBUG v src hsz hle, ?_, ?_⟩
    · rw [← hsz]
      exact size_congr NDEBUG v _ rfl
    · intro i _
      rw [operator_call_of_span NDEBUG _ _ i
        (toSpan_of_size NDEBUG _ src.length (by rw [← hsz]; exact size_congr NDEBUG v _ rfl)
          (by simp [Vector.data]))]
      simp [Vector.data]
  · refine ⟨_, operator_assign_other NDEBUG v n src hsz hlen, ?_, ?_⟩
    · exact size_row NDEBUG _ src (by rw [initializeVector_snd]; rfl)
    · intro i _
      exact operator_call_of_span NDEBUG _ _ i
        (toSpan_row NDEBUG _ src (by rw [initializeVector_snd]; rfl)
          (by rw [initializeVector_snd]; rfl))

/-- C2: for a Vector whose handle has the two dimension entries `(a, b)`,
`size()` returns 0 if `a = 0` or `b = 0` and `max a b` otherwise; in particular
a `1 x N` and an `N x 1` handle both have size `N`. -/
theorem size_two_dims (NDEBUG : Bool) (v : Vector T) (a b : Nat)
    (hd : v.dimensions = [a, b]) :
    Vector.size NDEBUG v = some (if a = 0 ∨ b = 0 then 0 else max a b)
    ∧ (a = 1 → Vector.size NDEBUG v = some b)
    ∧ (b = 1 → Vector.size NDEBUG v = some a) := by
  have hs : Vector.size NDEBUG v = some (if a = 0 ∨ b = 0 then 0 else max a b) := by
    rw [size_of_dims NDEBUG v a b hd]
    by_cases ha : a = 0 <;> by_cases hb : b = 0 <;> simp [ha, hb]
  refine ⟨hs, ?_, ?_⟩
  · intro h1
    rw [hs, h1]
    by_cases hb : b = 0 <;> simp [hb]
    omega
  · intro h1
    rw [hs, h1]
    by_cases ha : a = 0 <;> simp [ha]
    omega

/-- Witness for C2: the column vector `[3, 1]` has size 3. -/
theorem size_two_dims_witness :
    sampleColumn.dimensions = [3, 1]
    ∧ Vector.size false sampleColumn = some (if 3 = 0 ∨ 1 = 0 then 0 else max 3 1)
    ∧ (3 = 1 → Vector.size false sampleColumn = some 1)
    ∧ (1 = 1 → Vector.size false sampleColumn = some 3) :=
  ⟨rfl, size_two_dims false sampleColumn 3 1 rfl⟩

/-- Witness for C1: growing the row vector `10, 20, 30` to five elements. -/
theorem resize_contents_witness :
    ∃ w, Vector.resize false sampleRow 5 = some w
      ∧ Vector.size false w = some 5
      ∧ (∀ i, i < min 3 5 →
          ∃ x, Vector.operator_call false sampleRow i = some x
             ∧ Vector.operator_call false w i = some x)
      ∧ (∀ i, 3 ≤ i → i < 5 →
          Vector.operator_call false w i = some (PrimitiveType.zero)) :=
  resize_contents false sampleRow 1 3 3 5 rfl rfl rfl

/-- Witness for C4: assigning a two-element span to the column vector. -/
theorem operator_assign_contents_witness :
    ∃ w, Vector.operator_assign false sampleColumn [8, 9] = some w
      ∧ Vector.size false w = some 2
      ∧ ∀ i, i < 2 → Vector.operator_call false w i = [8, 9][i]? :=
  operator_assign_contents false sampleColumn 3 1 rfl rfl [8, 9]

/-- C3: round-trip copy-in for the 1-D specialization: `Vector<T>(name, buf)`
has dimensions `[1, n]` and size `n`, where `n` is the number of elements of
`buf`, and `toSpan()` is a view of length `n` whose element `i` is `buf[i]`. -/
theorem new_span_round_trip [PrimitiveType T] (NDEBUG : Bool) (name : String)
    (buf : List T) :
    (Vector.new_span name buf).dimensions = [1, buf.length]
    ∧ Vector.size NDEBUG (Vector.new_span name buf) = some buf.length
    ∧ ∃ view, Vector.toSpan NDEBUG (Vector.new_span name buf) = some view
        ∧ view.length = buf.length
        ∧ ∀ i, i < buf.length → view[i]? = buf[i]? := by
  have hd : (Vector.new_span name buf).dimensions = [1, buf.length] := by
    unfold Vector.new_span
    rw [initializeVector_snd]; rfl
  have hx : (Vector.new_span name buf).data = buf := by
    unfold Vector.new_span
    rw [initializeVector_snd]; rfl
  exact ⟨hd, size_row NDEBUG _ buf hd, buf, toSpan_row NDEBUG _ buf hd hx, rfl,
    fun _ _ => rfl⟩

/-- C5: an assignment whose source (a span, or a string for a `char` vector) has
the length of the vector leaves the identity of the handle and its dimensions
unchanged; an assignment whose source has another length reinitializes the
handle, whose identity changes. -/
theorem assignment_identity [PrimitiveType T] (NDEBUG : Bool)
    (v : Vector T) (a b : Nat) (hd : v.dimensions = [a, b])
    (hbuf : v.data.length = a * b) (src : List T)
    (c : Vector Char) (k l : Nat) (hdc : c.dimensions = [k, l])
    (hbufc : c.data.length = k * l) (str : String) :
    (∃ w, Vector.operator_assign NDEBUG v src = some w
      ∧ (Vector.size NDEBUG v = some src.length →
          w.allocation = v.allocation ∧ w.dimensions = v.dimensions)
      ∧ (Vector.size NDEBUG v ≠ some src.length → w.allocation ≠ v.allocation))
    ∧ (∃ w, Vector.operator_assign_string NDEBUG c str = some w
      ∧ (Vector.size NDEBUG c = some str.length →
          w.allocation = c.allocation ∧ w.dimensions = c.dimensions)
      ∧ (Vector.size NDEBUG c ≠ some str.length → w.allocation ≠ c.allocation)) := by
  constructor
  · obtain ⟨n, hsz, hle⟩ := size_le_buffer NDEBUG v a b hd hbuf
    by_cases hlen : n = src.length
    · subst hlen
      refine ⟨_, operator_assign_same NDEBUG v src hsz hle, fun _ => ⟨rfl, rfl⟩, ?_⟩
      intro h
      exact absurd hsz h
    · refine ⟨_, operator_assign_other NDEBUG v n src hsz hlen, ?_, ?_⟩
      · intro h
        exact absurd (Option.some.inj (hsz.symm.trans h)) hlen
      · intro _
        rw [initializeVector_snd]
        exact Nat.succ_ne_self _
  · obtain ⟨n, hsz, hle⟩ := size_le_buffer NDEBUG c k l hdc hbufc
    by_cases hlen : n = str.length
    · subst hlen
      refine ⟨_, operator_assign_string_same NDEBUG c str hsz hle, fun _ => ⟨rfl, rfl⟩, ?_⟩
      intro h
      exact absurd hsz h
    · refine ⟨_, operator_assign_string_other NDEBUG c n str hsz hlen, ?_, ?_⟩
      · intro h
        exact absurd (Option.some.inj (hsz.symm.trans h)) hlen
      · intro _
        exact Nat.succ_ne_self _

/-- Witness for C5: a three-element span assigned to the three-element row
vector, and a three-character string assigned to the two-character vector. -/
theorem assignment_identity_witness :
    (∃ w, Vector.operator_assign false sampleRow [4, 5, 6] = some w
      ∧ (Vector.size false sampleRow = some 3 →
          w.allocation = sampleRow.allocation ∧ w.dimensions = sampleRow.dimensions)
      ∧ (Vector.size false sampleRow ≠ some 3 → w.allocation ≠ sampleRow.allocation))
    ∧ (∃ w, Vector.operator_assign_string false sampleText "abc" = some w
      ∧ (Vector.size false sampleText = some 3 →
          w.allocation = sampleText.allocation ∧ w.dimensions = sampleText.dimensions)
      ∧ (Vector.size false sampleText ≠ some 3 →
          w.allocation ≠ sampleText.allocation)) :=
  assignment_identity false sampleRow 1 3 rfl rfl [4, 5, 6] sampleText 1 2 rfl rfl "abc"

/-- C6: `checkCompatibility` returns false for a null handle, for a handle whose
structural kind is not `Vector`, for a complex handle and for a handle whose
element type tag is not convertible to `T`; it returns true exactly when the
handle is non-null, of kind `Vector`, not complex and of a convertible type. -/
theorem checkCompatibility_spec [PrimitiveType T] :
    Vector.checkCompatibility (none : Option (matvar_t T)) = false
    ∧ (∀ p : matvar_t T,
        Vector.checkCompatibility (some p)
          = (decide ((get_types_from_matvart p).1 = VariableType.Vector)
              && !p.isComplex
              && PrimitiveType.is_convertible_to_primitive_type T
                   (get_types_from_matvart p).2))
    ∧ (∀ h : Option (matvar_t T),
        Vector.checkCompatibility h = true ↔
          ∃ p, h = some p
            ∧ (get_types_from_matvart p).1 = VariableType.Vector
            ∧ p.isComplex = false
            ∧ PrimitiveType.is_convertible_to_primitive_type T
                (get_types_from_matvart p).2 = true) := by
  have hsome : ∀ p : matvar_t T,
      Vector.checkCompatibility (some p)
        = (decide ((get_types_from_matvart p).1 = VariableType.Vector)
            && !p.isComplex
            && PrimitiveType.is_convertible_to_primitive_type T
                 (get_types_from_matvart p).2) := by
    intro p
    unfold Vector.checkCompatibility
    by_cases h1 : (get_types_from_matvart p).1 = VariableType.Vector
    · cases h2 : p.isComplex <;>
        cases h3 : PrimitiveType.is_convertible_to_primitive_type T
          (get_types_from_matvart p).2 <;> simp [h1, h2, h3]
    · simp [h1]
  refine ⟨rfl, hsome, ?_⟩
  intro h
  cases h with
  | none => simp [Vector.checkCompatibility]
  | some p =>
    rw [hsome p]
    simp [Bool.and_eq_true]
    tauto

/-- Counterexample for C7: with assertions enabled, constructing a Vector from
a handle that fails `checkCompatibility` (here a complex record) stops at
`assert(false)` instead of yielding an empty vector. -/
theorem new_handler_incompatible_aborts :
    Vector.checkCompatibility sampleComplexHandler.ptr = false
    ∧ ¬ ∃ w, Vector.new_handler false sampleComplexHandler = some w := by
  refine ⟨rfl, ?_⟩
  rintro ⟨w, hw⟩
  exact Option.noConfusion hw

/-- C7 (amended): for a handle that fails `checkCompatibility`, the constructor
completes in a build without assertions and yields an empty vector (size 0,
dimensions `[1, 0]`, name `unnamed_vector`), while with assertions enabled it
stops at `assert(false)`; for a handle that passes `checkCompatibility`, the
constructed Vector wraps the name, dimensions and data of that handle unchanged. -/
theorem new_handler_spec [PrimitiveType T] (bad good : MatvarHandler T)
    (hbad : Vector.checkCompatibility bad.ptr = false)
    (hgood : Vector.checkCompatibility good.ptr = true) :
    (∃ w, Vector.new_handler true bad = some w
        ∧ Vector.size true w = some 0
        ∧ w.dimensions = [1, 0]
        ∧ w.name = "unnamed_vector")
    ∧ Vector.new_handler false bad = none
    ∧ (∀ NDEBUG, ∃ p w, good.ptr = some p
        ∧ Vector.new_handler NDEBUG good = some w
        ∧ w.allocation = good.allocation
        ∧ w.name = p.name ∧ w.dimensions = p.dims ∧ w.data = p.data) := by
  refine ⟨?_, ?_, ?_⟩
  · refine ⟨(Vector.initializeVector bad.allocation "unnamed_vector" ([] : List T)).2,
      ?_, ?_, ?_, ?_⟩
    · unfold Vector.new_handler
      simp [hbad]
    · exact size_row true _ ([] : List T) (by rw [initializeVector_snd]; rfl)
    · rw [initializeVector_snd]; rfl
    · rw [initializeVector_snd]; rfl
  · unfold Vector.new_handler
    simp [hbad]
  · intro NDEBUG
    cases hp : good.ptr with
    | none =>
      rw [hp] at hgood
      simp [Vector.checkCompatibility] at hgood
    | some p =>
      refine ⟨p, { allocation := good.allocation, matvar := p }, rfl, ?_, rfl, rfl, rfl, rfl⟩
      unfold Vector.new_handler
      rw [hgood, hp]
      rfl

/-- Witness for C7 (amended): the complex record is rejected, the record of the
column vector is adopted. -/
theorem new_handler_spec_witness :
    (∃ w, Vector.new_handler true sampleComplexHandler = some w
        ∧ Vector.size true w = some 0
        ∧ w.dimensions = [1, 0]
        ∧ w.name = "unnamed_vector")
    ∧ Vector.new_handler false sampleComplexHandler = none
    ∧ (∀ NDEBUG, ∃ p w, sampleColumnHandler.ptr = some p
        ∧ Vector.new_handler NDEBUG sampleColumnHandler = some w
        ∧ w.allocation = sampleColumnHandler.allocation
        ∧ w.name = p.name ∧ w.dimensions = p.dims ∧ w.data = p.data) :=
  new_handler_spec sampleComplexHandler sampleColumnHandler rfl rfl

/-- C8: string specialization round trip: the `char` vector constructed from the
name `s` alone has size `length s` and converts back to exactly `s`. -/
theorem new_name_char_round_trip (NDEBUG : Bool) (s : String) :
    Vector.size NDEBUG (Vector.new_name s : Vector Char) = some s.length
    ∧ Vector.operator_call_string NDEBUG (Vector.new_name s : Vector Char) = some s
    ∧ Vector.operator_call_string NDEBUG (Vector.new_name "abc" : Vector Char)
        = some "abc" := by
  have key : ∀ t : String,
      (Vector.new_name t : Vector Char)
        = { allocation := 1,
            matvar := { name := t, variableType := VariableType.Vector,
                        valueType := ValueType.CHAR,
                        dims := [1, t.toList.length], isComplex := false,
                        data := t.toList } } := by
    intro t
    unfold Vector.new_name
    have hc : PrimitiveType.is_char Char = true := rfl
    have hm : t.toList.map (PrimitiveType.ofChar : Char → Char) = t.toList :=
      List.map_id _
    simp only [hc, if_true, copyName_replicate, hm]
    exact initializeVector_snd 0 t t.toList
  have hsize : ∀ t : String,
      Vector.size NDEBUG (Vector.new_name t : Vector Char) = some t.length := by
    intro t
    exact size_row NDEBUG _ t.toList (by rw [key t]; rfl)
  have hconv : ∀ t : String,
      Vector.operator_call_string NDEBUG (Vector.new_name t : Vector Char) = some t := by
    intro t
    have hdata : (Vector.new_name t : Vector Char).data = t.toList := by
      rw [key t]; rfl
    have hl : t.length = t.toList.length := rfl
    rw [operator_call_string_of_size NDEBUG _ t.length (hsize t)
      (by rw [hdata]; exact le_of_eq hl), hdata, hl, List.take_length]
    rfl
  exact ⟨hsize s, hconv s, hconv "abc"⟩

/-- C9: `v.setName(newName)` returns true, and then the name of the vector is
`newName`, its size is unchanged and every element below the size holds the
value it held before the call. -/
theorem setName_contents [PrimitiveType T] (NDEBUG : Bool) (v : Vector T)
    (a b : Nat) (hd : v.dimensions = [a, b]) (hbuf : v.data.length = a * b)
    (newName : String) :
    ∃ w, Vector.setName NDEBUG v newName = some (true, w)
      ∧ w.name = newName
      ∧ Vector.size NDEBUG w = Vector.size NDEBUG v
      ∧ ∃ n, Vector.size NDEBUG v = some n
          ∧ ∀ i, i < n →
              ∃ x, Vector.operator_call NDEBUG v i = some x
                 ∧ Vector.operator_call NDEBUG w i = some x := by
  obtain ⟨n, hsz, hle⟩ := size_le_buffer NDEBUG v a b hd hbuf
  have hl : (v.data.take n).length = n := by
    rw [List.length_take]; omega
  refine ⟨_, setName_eq NDEBUG v n hsz hle newName, ?_⟩
  have hwd : ∀ w : Vector T, w.dimensions = [1, n] → w.data = v.data.take n →
      Vector.size NDEBUG w = some n ∧ Vector.toSpan NDEBUG w = some (v.data.take n) := by
    intro w h1 h2
    rw [← hl] at h1
    refine ⟨?_, toSpan_row NDEBUG w _ h1 h2⟩
    rw [size_row NDEBUG w _ h1, hl]
  obtain ⟨hws, hwspan⟩ := hwd
    { allocation := v.allocation + 1,
      matvar := { name := newName, variableType := VariableType.Vector,
                  valueType := PrimitiveType.valueType T,
                  dims := [1, n], isComplex := false,
                  data := v.data.take n } } rfl rfl
  refine ⟨rfl, by rw [hws, hsz], n, hsz, ?_⟩
  intro i hi
  have hiv : i < v.data.length := lt_of_lt_of_le hi hle
  refine ⟨v.data[i], ?_, ?_⟩
  · rw [operator_call_of_span NDEBUG v _ i (toSpan_of_size NDEBUG v n hsz hle),
      List.getElem?_take_of_lt hi]
    exact List.getElem?_eq_getElem hiv
  · rw [operator_call_of_span NDEBUG _ _ i hwspan, List.getElem?_take_of_lt hi]
    exact List.getElem?_eq_getElem hiv

/-- Witness for C9: renaming the column vector `1, 2, 3`. -/
theorem setName_contents_witness :
    ∃ w, Vector.setName false sampleColumn "renamed" = some (true, w)
      ∧ w.name = "renamed"
      ∧ Vector.size false w = Vector.size false sampleColumn
      ∧ ∃ n, Vector.size false sampleColumn = some n
          ∧ ∀ i, i < n →
              ∃ x, Vector.operator_call false sampleColumn i = some x
                 ∧ Vector.operator_call false w i = some x :=
  setName_contents false sampleColumn 3 1 rfl rfl "renamed"

/-- Counterexample for C10: renaming the column vector with dimensions `[3, 1]`
leaves it with dimensions `[1, 3]`. -/
theorem setName_column_changes_dimensions :
    sampleColumn.dimensions = [3, 1]
    ∧ ∃ ok w, Vector.setName false sampleColumn "renamed" = some (ok, w)
        ∧ w.dimensions = [1, 3]
        ∧ w.dimensions ≠ sampleColumn.dimensions := by
  refine ⟨rfl, true, _, setName_eq false sampleColumn 3 rfl (by decide) "renamed", rfl, ?_⟩
  decide

/-- C10 (amended): after `v.setName(newName)` the dimensions sequence of the
handle is `[1, size()]`; it is the sequence held before the call when the
handle was row-oriented (`[1, N]`). -/
theorem setName_dimensions [PrimitiveType T] (NDEBUG : Bool) (v : Vector T)
    (a b : Nat) (hd : v.dimensions = [a, b]) (hbuf : v.data.length = a * b)
    (newName : String) :
    ∃ ok w n, Vector.setName NDEBUG v newName = some (ok, w)
      ∧ Vector.size NDEBUG v = some n
      ∧ w.dimensions = [1, n]
      ∧ (a = 1 → w.dimensions = v.dimensions) := by
  obtain ⟨n, hsz, hle⟩ := size_le_buffer NDEBUG v a b hd hbuf
  refine ⟨true, _, n, setName_eq NDEBUG v n hsz hle newName, hsz, rfl, ?_⟩
  intro ha
  subst ha
  have hn : n = b := by
    have h := size_of_dims NDEBUG v 1 b hd
    rw [size_value_one_left, hsz] at h
    exact Option.some.inj h
  show [1, n] = v.dimensions
  rw [hd, hn]

/-- Witness for C10 (amended): renaming the row vector `10, 20, 30`. -/
theorem setName_dimensions_witness :
    ∃ ok w n, Vector.setName false sampleRow "renamed" = some (ok, w)
      ∧ Vector.size false sampleRow = some n
      ∧ w.dimensions = [1, n]
      ∧ (1 = 1 → w.dimensions = sampleRow.dimensions) :=
  setName_dimensions false sampleRow 1 3 rfl rfl "renamed"

/-- Counterexample for C11: resizing the three-element row vector to its own
size 3 leaves the handle it held before in place. -/
theorem resize_same_size_keeps_handle :
    Vector.size false sampleRow = some 3
    ∧ ∃ w, Vector.resize false sampleRow 3 = some w
        ∧ w.allocation = sampleRow.allocation := by
  refine ⟨rfl, sampleRow, ?_, rfl⟩
  exact resize_same false sampleRow 3 rfl

/-- C11 (amended): for every `newSize` different from `v.size()`, `v.resize(newSize)`
reinitializes the handle (the handle after the call is a newly allocated one);
when `newSize` equals `v.size()` the call changes nothing. -/
theorem resize_identity [PrimitiveType T] (NDEBUG : Bool) (v : Vector T)
    (a b : Nat) (hd : v.dimensions = [a, b]) (hbuf : v.data.length = a * b)
    (newSize : Nat) :
    ∃ w, Vector.resize NDEBUG v newSize = some w
      ∧ (Vector.size NDEBUG v ≠ some newSize → w.allocation ≠ v.allocation)
      ∧ (Vector.size NDEBUG v = some newSize → w = v) := by
  obtain ⟨n, hsz, hle⟩ := size_le_buffer NDEBUG v a b hd hbuf
  by_cases hne : newSize = n
  · subst hne
    exact ⟨v, resize_same NDEBUG v newSize hsz, fun h => absurd hsz h, fun _ => rfl⟩
  · refine ⟨_, resize_changed NDEBUG v n newSize hsz hle hne, ?_, ?_⟩
    · intro _
      rw [initializeVector_snd]
      exact Nat.succ_ne_self _
    · intro h
      exact absurd (Option.some.inj (h.symm.trans hsz)) hne

/-- Witness for C11 (amended): growing the row vector `10, 20, 30` to five
elements. -/
theorem resize_identity_witness :
    ∃ w, Vector.resize false sampleRow 5 = some w
      ∧ (Vector.size false sampleRow ≠ some 5 → w.allocation ≠ sampleRow.allocation)
      ∧ (Vector.size false sampleRow = some 5 → w = sampleRow) :=
  resize_identity false sampleRow 1 3 rfl rfl 5

/-- C13: the default constructor yields, for every element type (`char` included),
an empty vector named `unnamed_vector` with dimensions `[1, 0]` and size 0; for
every element type other than `char` and every name, `Vector<T>(name)` yields an
empty vector with that name, dimensions `[1, 0]` and size 0. -/
theorem empty_constructors {U : Type} [PrimitiveType T] [PrimitiveType U]
    (NDEBUG : Bool) (hnc : PrimitiveType.is_char U = false) (name : String) :
    ((Vector.new : Vector T).name = "unnamed_vector"
      ∧ (Vector.new : Vector T).dimensions = [1, 0]
      ∧ Vector.size NDEBUG (Vector.new : Vector T) = some 0)
    ∧ ((Vector.new : Vector Char).name = "unnamed_vector"
      ∧ (Vector.new : Vector Char).dimensions = [1, 0]
      ∧ Vector.size NDEBUG (Vector.new : Vector Char) = some 0)
    ∧ ((Vector.new_name name : Vector U).name = name
      ∧ (Vector.new_name name : Vector U).dimensions = [1, 0]
      ∧ Vector.size NDEBUG (Vector.new_name name : Vector U) = some 0) := by
  have hnew : ∀ (V : Type) [PrimitiveType V],
      (Vector.new : Vector V).name = "unnamed_vector"
        ∧ (Vector.new : Vector V).dimensions = [1, 0]
        ∧ Vector.size NDEBUG (Vector.new : Vector V) = some 0 := by
    intro V _
    have hd : (Vector.new : Vector V).dimensions = [1, ([] : List V).length] := by
      unfold Vector.new
      rw [initializeVector_snd]; rfl
    refine ⟨?_, hd, size_row NDEBUG _ ([] : List V) hd⟩
    unfold Vector.new
    rw [initializeVector_snd]; rfl
  refine ⟨hnew T, hnew Char, ?_⟩
  have hv : (Vector.new_name name : Vector U)
      = (Vector.initializeVector 0 name ([] : List U)).2 := by
    unfold Vector.new_name
    simp only [hnc]
    rfl
  have hd : (Vector.new_name name : Vector U).dimensions = [1, ([] : List U).length] := by
    rw [hv, initializeVector_snd]; rfl
  refine ⟨?_, hd, size_row NDEBUG _ ([] : List U) hd⟩
  rw [hv, initializeVector_snd]; rfl

/-- Witness for C13: `int32_t` is not `char`. -/
theorem empty_constructors_witness :
    ((Vector.new : Vector Int).name = "unnamed_vector"
      ∧ (Vector.new : Vector Int).dimensions = [1, 0]
      ∧ Vector.size false (Vector.new : Vector Int) = some 0)
    ∧ ((Vector.new : Vector Char).name = "unnamed_vector"
      ∧ (Vector.new : Vector Char).dimensions = [1, 0]
      ∧ Vector.size false (Vector.new : Vector Char) = some 0)
    ∧ ((Vector.new_name "signal" : Vector Int).name = "signal"
      ∧ (Vector.new_name "signal" : Vector Int).dimensions = [1, 0]
      ∧ Vector.size false (Vector.new_name "signal" : Vector Int) = some 0) :=
  empty_constructors false rfl "signal"

/-- C15: text round trip of the string specialization: `Vector<char>(name, s)()`
returns `s`; and for every `char` vector `v` and every string `s`, of the length
of `v` or not, after `v = s` the conversion `v()` returns exactly `s` and
`v.size()` is the length of `s`. -/
theorem string_round_trip (NDEBUG : Bool) (name s : String) (v : Vector Char)
    (a b : Nat) (hd : v.dimensions = [a, b]) (hbuf : v.data.length = a * b) :
    Vector.operator_call_string NDEBUG (Vector.new_string name s) = some s
    ∧ ∃ w, Vector.operator_assign_string NDEBUG v s = some w
        ∧ Vector.operator_call_string NDEBUG w = some s
        ∧ Vector.size NDEBUG w = some s.length := by
  have hl : s.toList.length = s.length := rfl
  have hrow : ∀ w : Vector Char, w.dimensions = [1, s.length] → w.data = s.toList →
      Vector.operator_call_string NDEBUG w = some s
        ∧ Vector.size NDEBUG w = some s.length := by
    intro w h1 h2
    have hs : Vector.size NDEBUG w = some s.length := by
      rw [← hl] at h1
      rw [size_row NDEBUG w s.toList h1, hl]
    refine ⟨?_, hs⟩
    rw [operator_call_string_of_size NDEBUG w s.length hs (by rw [h2, hl]), h2, ← hl,
      List.take_length]
    rfl
  constructor
  · refine (hrow (Vector.new_string name s) ?_ ?_).1
    · unfold Vector.new_string
      rw [← hl, initializeVariable_row]; rfl
    · unfold Vector.new_string
      rw [← hl, initializeVariable_row]; rfl
  · obtain ⟨n, hsz, hle⟩ := size_le_buffer NDEBUG v a b hd hbuf
    by_cases hlen : n = s.length
    · subst hlen
      refine ⟨_, operator_assign_string_same NDEBUG v s hsz hle, ?_, ?_⟩
      · rw [operator_call_string_of_size NDEBUG _ s.length
          (by rw [← hsz]; exact size_congr NDEBUG v _ rfl)
          (by simp [Vector.data])]
        have ht : (s.toList ++ List.drop s.length v.matvar.data).take s.length
            = s.toList := by
          rw [← hl, List.take_left]
        show some (String.mk ((s.toList ++ List.drop s.length v.matvar.data).take s.length))
          = some s
        rw [ht]
        rfl
      · rw [← hsz]
        exact size_congr NDEBUG v _ rfl
    · refine ⟨_, operator_assign_string_other NDEBUG v n s hsz hlen, ?_⟩
      exact hrow _ rfl rfl

/-- Witness for C15: the three-character string `abc` assigned to the
two-character vector. -/
theorem string_round_trip_witness :
    Vector.operator_call_string false (Vector.new_string "text" "abc") = some "abc"
    ∧ ∃ w, Vector.operator_assign_string false sampleText "abc" = some w
        ∧ Vector.operator_call_string false w = some "abc"
        ∧ Vector.size false w = some "abc".length :=
  string_round_trip false "text" "abc" sampleText 1 2 rfl rfl

/-- C18: span assignment, string assignment and `resize`, whether they copy in
place or reinitialize the handle, leave the name of the vector as it was. -/
theorem name_preserved [PrimitiveType T] (NDEBUG : Bool)
    (v : Vector T) (a b : Nat) (hd : v.dimensions = [a, b])
    (hbuf : v.data.length = a * b) (src : List T) (newSize : Nat)
    (c : Vector Char) (k l : Nat) (hdc : c.dimensions = [k, l])
    (hbufc : c.data.length = k * l) (str : String) :
    (∃ w, Vector.operator_assign NDEBUG v src = some w ∧ w.name = v.name)
    ∧ (∃ w, Vector.operator_assign_string NDEBUG c str = some w ∧ w.name = c.name)
    ∧ (∃ w, Vector.resize NDEBUG v newSize = some w ∧ w.name = v.name) := by
  obtain ⟨n, hsz, hle⟩ := size_le_buffer NDEBUG v a b hd hbuf
  obtain ⟨m, hszc, hlec⟩ := size_le_buffer NDEBUG c k l hdc hbufc
  refine ⟨?_, ?_, ?_⟩
  · by_cases hlen : n = src.length
    · subst hlen
      exact ⟨_, operator_assign_same NDEBUG v src hsz hle, rfl⟩
    · refine ⟨_, operator_assign_other NDEBUG v n src hsz hlen, ?_⟩
      rw [initializeVector_snd]; rfl
  · by_cases hlen : m = str.length
    · subst hlen
      exact ⟨_, operator_assign_string_same NDEBUG c str hszc hlec, rfl⟩
    · exact ⟨_, operator_assign_string_other NDEBUG c m str hszc hlen, rfl⟩
  · by_cases hne : newSize = n
    · subst hne
      exact ⟨v, resize_same NDEBUG v newSize hsz, rfl⟩
    · refine ⟨_, resize_changed NDEBUG v n newSize hsz hle hne, ?_⟩
      rw [initializeVector_snd]; rfl

/-- Witness for C18: the column vector is assigned two elements and resized to
five, the two-character vector is assigned `hi`. -/
theorem name_preserved_witness :
    (∃ w, Vector.operator_assign false sampleColumn [8, 9] = some w
      ∧ w.name = sampleColumn.name)
    ∧ (∃ w, Vector.operator_assign_string false sampleText "ok" = some w
      ∧ w.name = sampleText.name)
    ∧ (∃ w, Vector.resize false sampleColumn 5 = some w ∧ w.name = sampleColumn.name) :=
  name_preserved false sampleColumn 3 1 rfl rfl [8, 9] 5 sampleText 1 2 rfl rfl "ok"

/-- C19: for dimension entries `(a, b)` with `a = 1`, `b = 1`, `a = 0` or `b = 0`,
`size()` is the product `a * b`, so the view returned by `toSpan()` covers
exactly the buffer of `product(dimensions)` elements. -/
theorem size_covers_buffer (NDEBUG : Bool) (v : Vector T) (a b : Nat)
    (hd : v.dimensions = [a, b]) (hbuf : v.data.length = a * b)
    (hshape : a = 1 ∨ b = 1 ∨ a = 0 ∨ b = 0) :
    Vector.size NDEBUG v = some (a * b)
    ∧ Vector.size NDEBUG v = some v.dimensions.prod
    ∧ Vector.toSpan NDEBUG v = some v.data
    ∧ ∃ view, Vector.toSpan NDEBUG v = some view ∧ view.length = v.dimensions.prod := by
  have hs : Vector.size NDEBUG v = some (a * b) := by
    rw [size_of_dims NDEBUG v a b hd, size_value_shape a b hshape]
  have hp : v.dimensions.prod = a * b := by
    rw [hd]; simp
  have ht : Vector.toSpan NDEBUG v = some v.data := by
    rw [toSpan_of_size NDEBUG v (a * b) hs (le_of_eq hbuf.symm), ← hbuf, List.take_length]
  exact ⟨hs, by rw [hs, hp], ht, v.data, ht, by rw [hbuf, hp]⟩

/-- Witness for C19: the column vector `[3, 1]`. -/
theorem size_covers_buffer_witness :
    Vector.size false sampleColumn = some (3 * 1)
    ∧ Vector.size false sampleColumn = some sampleColumn.dimensions.prod
    ∧ Vector.toSpan false sampleColumn = some sampleColumn.data
    ∧ ∃ view, Vector.toSpan false sampleColumn = some view
        ∧ view.length = sampleColumn.dimensions.prod :=
  size_covers_buffer false sampleColumn 3 1 rfl rfl (Or.inr (Or.inl rfl))

/-- C12: forward traversal from `begin()` to `end()` (and from `cbegin()` to
`cend()`) visits exactly `size()` elements, the k-th visited being element `k` of
the linear buffer; reverse traversal from `rbegin()` to `rend()` (and from
`crbegin()` to `crend()`) visits the same elements in the reversed order. -/
theorem iterator_traversal (NDEBUG : Bool) (v : Vector T) (a b n : Nat)
    (hd : v.dimensions = [a, b]) (hbuf : v.data.length = a * b)
    (hn : Vector.size NDEBUG v = some n) (fuel : Nat) (hfuel : n ≤ fuel) :
    ∃ visited e ce rb crb,
      visited.length = n
      ∧ (∀ k, k < n → visited[k]? = v.data[k]?)
      ∧ (∀ k, k < n → visited[k]? = Vector.operator_call NDEBUG v k)
      ∧ Vector.end_ NDEBUG v = some e
      ∧ traverse NDEBUG v e fuel v.begin = some visited
      ∧ Vector.cend NDEBUG v = some ce
      ∧ traverse NDEBUG v ce fuel v.cbegin = some visited
      ∧ Vector.rbegin NDEBUG v = some rb
      ∧ traverse_reverse NDEBUG v v.rend fuel rb = some visited.reverse
      ∧ Vector.crbegin NDEBUG v = some crb
      ∧ traverse_reverse NDEBUG v v.crend fuel crb = some visited.reverse := by
  obtain ⟨m, hsz, hle⟩ := size_le_buffer NDEBUG v a b hd hbuf
  have hm : m = n := Option.some.inj (hsz.symm.trans hn)
  subst hm
  have hspan := toSpan_of_size NDEBUG v m hsz hle
  have hlen : (v.data.take m).length = m := by
    rw [List.length_take]; omega
  have hfw := traverse_forward NDEBUG v _ hspan fuel 0 (Nat.zero_le _) (by omega)
  have hbw := traverse_backward NDEBUG v _ hspan fuel m (by omega) hfuel
  rw [hlen] at hfw
  rw [List.drop_zero] at hfw
  have htake : (v.data.take m).take m = v.data.take m := by
    rw [List.take_take, Nat.min_self]
  rw [htake] at hbw
  have hend : Vector.end_ NDEBUG v = some { index := m } := by
    unfold Vector.end_
    rw [hsz]
  have hcend : Vector.cend NDEBUG v = some { index := m } := by
    unfold Vector.cend
    rw [hsz]
  have hrb : Vector.rbegin NDEBUG v = some { base := { index := m } } := by
    unfold Vector.rbegin
    rw [hend]
  have hcrb : Vector.crbegin NDEBUG v = some { base := { index := m } } := by
    unfold Vector.crbegin
    rw [hcend]
  refine ⟨v.data.take m, _, _, _, _, hlen, ?_, ?_, hend, hfw, hcend, hfw, hrb, hbw,
    hcrb, hbw⟩
  · intro k hk
    exact List.getElem?_take_of_lt hk
  · intro k _
    exact (operator_call_of_span NDEBUG v _ k hspan).symm

/-- Witness for C12: the row vector `10, 20, 30`, traversed with room for four
loop iterations. -/
theorem iterator_traversal_witness :
    ∃ visited e ce rb crb,
      visited.length = 3
      ∧ (∀ k, k < 3 → visited[k]? = sampleRow.data[k]?)
      ∧ (∀ k, k < 3 → visited[k]? = Vector.operator_call false sampleRow k)
      ∧ Vector.end_ false sampleRow = some e
      ∧ traverse false sampleRow e 4 sampleRow.begin = some visited
      ∧ Vector.cend false sampleRow = some ce
      ∧ traverse false sampleRow ce 4 sampleRow.cbegin = some visited
      ∧ Vector.rbegin false sampleRow = some rb
      ∧ traverse_reverse false sampleRow sampleRow.rend 4 rb = some visited.reverse
      ∧ Vector.crbegin false sampleRow = some crb
      ∧ traverse_reverse false sampleRow sampleRow.crend 4 crb = some visited.reverse :=
  iterator_traversal false sampleRow 1 3 3 rfl rfl rfl 4 (by decide)

/-- C14: shape invariant of the 1-D specialization: every Vector produced by a
constructor and every Vector obtained from one by span assignment, string
assignment, `resize` or `setName` has a dimensions sequence of exactly 2 entries
of which one is 1 (or the vector is empty); hence the assertion
`dimensions().size() == 2` inside `size()` holds and `size()` returns a value. -/
theorem reachable_shape (NDEBUG : Bool) (T : Type) (inst : PrimitiveType T)
    (v : Vector T) (h : Reachable NDEBUG T inst v) :
    v.dimensions.length = 2
    ∧ (∃ a b, v.dimensions = [a, b] ∧ (a = 1 ∨ b = 1 ∨ Vector.size NDEBUG v = some 0))
    ∧ (∃ n, Vector.size false v = some n)
    ∧ (∃ n, Vector.size NDEBUG v = some n) := by
  obtain ⟨a, b, hd, hab⟩ := vectorDimensions_dims v.matvar
    (reachable_vectorDimensions NDEBUG T inst v h)
  have hd2 : v.dimensions = [a, b] := hd
  refine ⟨by rw [hd2]; rfl, ⟨a, b, hd2, ?_⟩, ⟨_, size_of_dims false v a b hd2⟩,
    ⟨_, size_of_dims NDEBUG v a b hd2⟩⟩
  rcases hab with h1 | h1 | ⟨h0, _⟩
  · exact Or.inl h1
  · exact Or.inr (Or.inl h1)
  · refine Or.inr (Or.inr ?_)
    rw [size_of_dims NDEBUG v a b hd2, h0]
    simp

/-- Witness for C14: the vector built from the name `signal` and then assigned
the two-element span `1, 2`. -/
theorem reachable_shape_witness :
    Reachable false Int instPrimitiveTypeInt (Vector.initializeVector 1 "signal" [1, 2]).2
    ∧ (Vector.initializeVector 1 "signal" ([1, 2] : List Int)).2.dimensions.length = 2
    ∧ (∃ a b, (Vector.initializeVector 1 "signal" ([1, 2] : List Int)).2.dimensions = [a, b]
        ∧ (a = 1 ∨ b = 1
            ∨ Vector.size false (Vector.initializeVector 1 "signal" ([1, 2] : List Int)).2
                = some 0))
    ∧ (∃ n, Vector.size false (Vector.initializeVector 1 "signal" ([1, 2] : List Int)).2
        = some n)
    ∧ (∃ n, Vector.size false (Vector.initializeVector 1 "signal" ([1, 2] : List Int)).2
        = some n) :=
  have hr : Reachable false Int instPrimitiveTypeInt
      (Vector.initializeVector 1 "signal" [1, 2]).2 :=
    Reachable.operator_assign Int instPrimitiveTypeInt (Vector.new_name "signal") _ [1, 2]
      (Reachable.new_name Int instPrimitiveTypeInt "signal") rfl
  ⟨hr, reachable_shape false Int instPrimitiveTypeInt _ hr⟩

/-- C16: for a `MultiDimensionalArray` with dimensions `d` and a multi-index `el`
with `el[k] < d[k]` for all `k`, `operator()(el)` and `operator[](el)` access the
buffer element at the linear offset `sum(el[k] * stride[k])`, with
`stride[0] = 1` and `stride[k] = stride[k-1] * d[k-1]`, which lies inside the
buffer; for the `2 x 3` array filled column-major with `1..6`, `({0,0}) = 1`,
`({1,0}) = 2`, `({0,1}) = 3` and `({1,2}) = 6`. -/
theorem column_major_access (m : MultiDimensionalArray T) (el : List Nat)
    (hlen : el.length = m.matvar.dims.length)
    (hbuf : m.matvar.data.length = m.matvar.dims.prod)
    (hel : ∀ k, k < m.matvar.dims.length → el.getD k 0 < m.matvar.dims.getD k 0) :
    (MultiDimensionalArray.offset m.matvar.dims el
        = ((List.range el.length).map
            (fun k => el.getD k 0 * MultiDimensionalArray.stride m.matvar.dims k)).sum
      ∧ MultiDimensionalArray.stride m.matvar.dims 0 = 1
      ∧ (∀ k, MultiDimensionalArray.stride m.matvar.dims (k + 1)
            = MultiDimensionalArray.stride m.matvar.dims k * m.matvar.dims.getD k 0))
    ∧ MultiDimensionalArray.offset m.matvar.dims el < m.matvar.data.length
    ∧ (∃ x, m.matvar.data[MultiDimensionalArray.offset m.matvar.dims el]? = some x
        ∧ m.operator_call el = some x
        ∧ m.operator_index el = some x)
    ∧ (sampleMatrix.operator_call [0, 0] = some 1
      ∧ sampleMatrix.operator_call [1, 0] = some 2
      ∧ sampleMatrix.operator_call [0, 1] = some 3
      ∧ sampleMatrix.operator_call [1, 2] = some 6) := by
  have hlt : MultiDimensionalArray.offset m.matvar.dims el < m.matvar.data.length := by
    rw [hbuf]
    exact offset_lt_prod m.matvar.dims el hlen hel
  refine ⟨⟨rfl, rfl, fun _ => rfl⟩, hlt,
    ⟨m.matvar.data.get ⟨MultiDimensionalArray.offset m.matvar.dims el, hlt⟩, ?_, ?_, ?_⟩, ?_⟩
  · exact List.getElem?_eq_getElem hlt
  · exact List.getElem?_eq_getElem hlt
  · exact List.getElem?_eq_getElem hlt
  · refine ⟨?_, ?_, ?_, ?_⟩ <;> decide

/-- Witness for C16: element `{1, 2}` of the `2 x 3` array. -/
theorem column_major_access_witness :
    (MultiDimensionalArray.offset sampleMatrix.matvar.dims [1, 2]
        = ((List.range [1, 2].length).map
            (fun k => [1, 2].getD k 0
              * MultiDimensionalArray.stride sampleMatrix.matvar.dims k)).sum
      ∧ MultiDimensionalArray.stride sampleMatrix.matvar.dims 0 = 1
      ∧ (∀ k, MultiDimensionalArray.stride sampleMatrix.matvar.dims (k + 1)
            = MultiDimensionalArray.stride sampleMatrix.matvar.dims k
                * sampleMatrix.matvar.dims.getD k 0))
    ∧ MultiDimensionalArray.offset sampleMatrix.matvar.dims [1, 2]
        < sampleMatrix.matvar.data.length
    ∧ (∃ x, sampleMatrix.matvar.data[
              MultiDimensionalArray.offset sampleMatrix.matvar.dims [1, 2]]? = some x
        ∧ sampleMatrix.operator_call [1, 2] = some x
        ∧ sampleMatrix.operator_index [1, 2] = some x)
    ∧ (sampleMatrix.operator_call [0, 0] = some 1
      ∧ sampleMatrix.operator_call [1, 0] = some 2
      ∧ sampleMatrix.operator_call [0, 1] = some 3
      ∧ sampleMatrix.operator_call [1, 2] = some 6) :=
  column_major_access sampleMatrix [1, 2] rfl rfl (by
    intro k hk
    have hk2 : k < 2 := hk
    interval_cases k <;> decide)

/-- C17: for an index `i < v.size()` and a value `x`, writing `x` through the
reference returned by `v(i)` or `v[i]` makes a subsequent read `v(i)`, `v[i]` and
`toSpan()(i)` return `x`, and leaves every other element, the name, the
dimensions and the identity of the handle unchanged. -/
theorem store_through_reference (NDEBUG : Bool) (v : Vector T) (a b n i : Nat) (x : T)
    (hd : v.dimensions = [a, b]) (hbuf : v.data.length = a * b)
    (hn : Vector.size NDEBUG v = some n) (hi : i < n) :
    ∃ r, Vector.operator_call_ref NDEBUG v i = some r
      ∧ Vector.operator_index_ref NDEBUG v i = some r
      ∧ Vector.operator_call NDEBUG (v.store r x) i = some x
      ∧ Vector.operator_index NDEBUG (v.store r x) i = some x
      ∧ (∃ view, Vector.toSpan NDEBUG (v.store r x) = some view ∧ view[i]? = some x)
      ∧ (∀ j, j ≠ i →
          Vector.operator_call NDEBUG (v.store r x) j = Vector.operator_call NDEBUG v j)
      ∧ (v.store r x).name = v.name
      ∧ (v.store r x).dimensions = v.dimensions
      ∧ (v.store r x).allocation = v.allocation := by
  obtain ⟨m, hsz, hle⟩ := size_le_buffer NDEBUG v a b hd hbuf
  have hm : m = n := Option.some.inj (hsz.symm.trans hn)
  subst hm
  have hspan := toSpan_of_size NDEBUG v m hsz hle
  have hlen : (v.data.take m).length = m := by
    rw [List.length_take]; omega
  have hiv : i < v.matvar.data.length := lt_of_lt_of_le hi hle
  have hsz2 : Vector.size NDEBUG (v.store i x) = some m := by
    rw [← hsz]
    exact size_congr NDEBUG v _ rfl
  have hle2 : m ≤ (v.store i x).data.length := by
    simpa [Vector.store, Vector.data] using hle
  have hspan2 := toSpan_of_size NDEBUG (v.store i x) m hsz2 hle2
  have hread : ((v.store i x).data.take m)[i]? = some x := by
    rw [List.getElem?_take_of_lt hi]
    simp [Vector.store, Vector.data, hiv]
  have href : Vector.operator_call_ref NDEBUG v i = some i := by
    unfold Vector.operator_call_ref
    rw [hspan]
    simp [hlen, hi]
  refine ⟨i, href, href, ?_, ?_, ⟨_, hspan2, hread⟩, ?_, rfl, rfl, rfl⟩
  · rw [operator_call_of_span NDEBUG _ _ i hspan2]
    exact hread
  · unfold Vector.operator_index
    rw [operator_call_of_span NDEBUG _ _ i hspan2]
    exact hread
  · intro j hj
    rw [operator_call_of_span NDEBUG _ _ j hspan2, operator_call_of_span NDEBUG _ _ j hspan]
    simp only [List.getElem?_take]
    by_cases hjm : j < m
    · simp only [hjm, if_true]
      show (v.matvar.data.set i x)[j]? = v.matvar.data[j]?
      exact List.getElem?_set_ne (fun h => hj h.symm)
    · simp only [hjm, if_false]

/-- Witness for C17: writing 99 to element 1 of the row vector `10, 20, 30`. -/
theorem store_through_reference_witness :
    ∃ r, Vector.operator_call_ref false sampleRow 1 = some r
      ∧ Vector.operator_index_ref false sampleRow 1 = some r
      ∧ Vector.operator_call false (sampleRow.store r 99) 1 = some 99
      ∧ Vector.operator_index false (sampleRow.store r 99) 1 = some 99
      ∧ (∃ view, Vector.toSpan false (sampleRow.store r 99) = some view
          ∧ view[1]? = some 99)
      ∧ (∀ j, j ≠ 1 →
          Vector.operator_call false (sampleRow.store r 99) j
            = Vector.operator_call false sampleRow j)
      ∧ (sampleRow.store r 99).name = sampleRow.name
      ∧ (sampleRow.store r 99).dimensions = sampleRow.dimensions
      ∧ (sampleRow.store r 99).allocation = sampleRow.allocation :=
  store_through_reference false sampleRow 1 3 3 1 99 rfl rfl rfl (by decide)

end matioCpp
